import Mathlib

/-!
Verification development for the XAgent/L3AGI integration pipeline.

Shallow embedding of the repository's pipeline core and adapters:
* `src/xagent_integration/xagent_core.py` (`XAgentWrapper`, `MockXAgent`),
* `src/xagent_integration/l3agi_compatibility.py` (`ConversationalXAgent`),
* `src/modified_l3agi/dialogue_agent_with_tools.py` (`DialogueAgentWithTools`).

Python strings are `String`, Python lists are `List`, Python dicts with a fixed
key set are structures, exceptions are `Except String`, and the mutable
`self` object is threaded explicitly as state.  `datetime.now()` values are
passed in as explicit `Nat` timestamps, since the code never inspects them.
-/

set_option autoImplicit false

namespace XAgentIntegration

/-- `AgentMessage` dataclass of `xagent_core.py` (role, content, timestamp,
optional metadata defaulting to `None`). -/
structure AgentMessage where
  role : String
  content : String
  timestamp : Nat
  metadata : Option (List (String × String)) := none
  deriving Repr, DecidableEq

/-- One entry of a plan's `"steps"` list: a dict with `"action"` and
`"target"` keys.  Every plan built by this repository populates both keys, so
the `.get` defaults (`"unknown"`, `""`) of `_execute_step` never fire and the
fields are total. -/
structure Step where
  action : String
  target : String
  deriving Repr, DecidableEq

/-- A plan dict as built by `_create_plan` / `MockXAgent.create_plan`:
`"steps"` and `"tools_needed"` keys. -/
structure Plan where
  steps : List Step
  tools_needed : List String
  deriving Repr, DecidableEq

/-- A tool value: the code only ever reads `getattr(tool, '__name__', str(tool))`,
so a tool is modelled by whether it has a `__name__` attribute, that attribute's
value, and its `str(...)` form. -/
structure Tool where
  hasNameAttr : Bool
  nameAttr : String
  strForm : String
  deriving Repr, DecidableEq

/-- `getattr(tool, '__name__', str(tool))`, the name-derivation rule used in
`_create_plan`, `remove_tool` and `_update_tool_stats`. -/
def Tool.derivedName (t : Tool) : String :=
  if t.hasNameAttr then t.nameAttr else t.strForm

/-- `MockXAgent.create_plan` from `xagent_core.py`: two steps
`mock_analyze`/input and `mock_respond`/`generated_response`, with
`tools_needed = ["mock_tool"]`. -/
def mock_create_plan (input_text : String) : Plan :=
  { steps := [{ action := "mock_analyze", target := input_text },
              { action := "mock_respond", target := "generated_response" }],
    tools_needed := ["mock_tool"] }

/-- The object stored in `self.xagent`.  With the XAgent library absent (the
repository's import fallback), `_init_xagent` stores a `MockXAgent`; `custom`
stands for an installed XAgent-like object exposing `create_plan` (which may
raise); `noPlanAttr` stands for a backend object with no `create_plan`
attribute, the only case in which `_create_plan`'s fallback branch runs. -/
inductive Backend where
  | mock : Backend
  | noPlanAttr : Backend
  | custom : (String → Except String Plan) → Backend

/-- `hasattr(self.xagent, 'create_plan')` together with the bound method:
`none` models a backend without the attribute. -/
def Backend.create_plan_attr : Backend → Option (String → Except String Plan)
  | .mock => some fun input_text => .ok (mock_create_plan input_text)
  | .noPlanAttr => none
  | .custom f => some f

/-- `XAgentWrapper` state: `agent_name`, `tools`, the
`memory_config.get("enable_reflection", …)` entry (`none` when the key is
absent), `conversation_history`, and the `self.xagent` backend object. -/
structure XAgentWrapper where
  agent_name : String
  tools : List Tool
  memory_enable_reflection : Option Bool
  conversation_history : List AgentMessage
  backend : Backend

/-- `XAgentWrapper.__init__` with the library absent: empty memory config,
empty history, `MockXAgent` backend. -/
def defaultWrapper (agent_name : String) (tools : List Tool) : XAgentWrapper :=
  { agent_name := agent_name, tools := tools, memory_enable_reflection := none,
    conversation_history := [], backend := .mock }

/-- `XAgentWrapper._create_plan`: delegate to the backend's `create_plan` when
the attribute exists, otherwise build the three-step fallback plan annotated
with the derived names of the configured tools. -/
def create_plan (w : XAgentWrapper) (input_text : String) : Except String Plan :=
  match w.backend.create_plan_attr with
  | some f => f input_text
  | none =>
      .ok { steps := [{ action := "analyze", target := input_text },
                      { action := "execute", target := "planned_response" },
                      { action := "validate", target := "result" }],
            tools_needed := w.tools.map Tool.derivedName }

/-- `XAgentWrapper._execute_step`: the fixed action-to-line mapping. -/
def execute_step (step : Step) : String :=
  if step.action = "analyze" then "Analysis of: " ++ step.target
  else if step.action = "execute" then "Executed: " ++ step.target
  else if step.action = "validate" then "Validated: " ++ step.target
  else "Completed " ++ step.action ++ " on " ++ step.target

/-- The lines produced by the `for i, result in enumerate(results, 1)` loop of
`_synthesize_results`, numbering from `i`. -/
def linesFrom : Nat → List String → List String
  | _, [] => []
  | i, r :: rs => (toString i ++ ". " ++ r ++ "\n") :: linesFrom (i + 1) rs

/-- `XAgentWrapper._synthesize_results`: fixed string on an empty result list,
otherwise header, numbered lines, and the fixed completion sentence. -/
def synthesize_results (results : List String) : String :=
  if results.isEmpty then "No results to synthesize"
  else
    "XAgent completed the following steps:\n" ++ String.join (linesFrom 1 results)
      ++ "\nTask completed successfully."

/-- `XAgentWrapper._execute_plan`: run every step of `plan["steps"]` in order
and synthesize the results. -/
def execute_plan (plan : Plan) : String :=
  synthesize_results (plan.steps.map execute_step)

/-- `XAgentWrapper._reflect_on_result`: append the fixed reflection suffix
referencing the first 50 characters of the original input
(`original_input[:50]`). -/
def reflect_on_result (result original_input : String) : String :=
  result ++ ("\n[Reflection] Evaluated result for input: '"
    ++ String.mk (original_input.toList.take 50) ++ "...'")

/-- `self.memory_config.get("enable_reflection", True)`. -/
def reflect_enabled (w : XAgentWrapper) : Bool :=
  w.memory_enable_reflection.getD true

/-- `XAgentWrapper._execute_xagent_workflow`: plan, execute, optionally
reflect; any exception from plan creation is caught and rendered as
`"Workflow execution error: …"`. -/
def execute_xagent_workflow (w : XAgentWrapper) (input_text : String) : String :=
  match create_plan w input_text with
  | .error e => "Workflow execution error: " ++ e
  | .ok plan =>
      let result := execute_plan plan
      if reflect_enabled w then reflect_on_result result input_text else result

/-- `XAgentWrapper.run`: append the user message, execute the workflow, append
the assistant message, return the response.  The two `datetime.now()` calls are
the explicit timestamps `t1`, `t2`. -/
def run (w : XAgentWrapper) (input_text : String) (t1 t2 : Nat) :
    XAgentWrapper × String :=
  let w1 : XAgentWrapper :=
    { w with conversation_history := w.conversation_history
        ++ [{ role := "user", content := input_text, timestamp := t1 }] }
  let response := execute_xagent_workflow w1 input_text
  ({ w1 with conversation_history := w1.conversation_history
      ++ [{ role := "assistant", content := response, timestamp := t2 }] },
   response)

/-- `XAgentWrapper.get_memory`. -/
def get_memory (w : XAgentWrapper) : List AgentMessage :=
  w.conversation_history

/-- `XAgentWrapper.clear_memory`: `self.conversation_history.clear()`. -/
def clear_memory (w : XAgentWrapper) : XAgentWrapper :=
  { w with conversation_history := [] }

/-! Character-list helpers modelling Python string primitives:
`pat in s`, `s.split(pat)[0]` and `s.strip()` from
`ConversationalXAgent._format_conversation_output`. -/

/-- `startsWithL pat l` holds when `pat` is an initial segment of `l`. -/
def startsWithL : List Char → List Char → Bool
  | [], _ => true
  | _ :: _, [] => false
  | p :: ps, c :: cs => p == c && startsWithL ps cs

/-- Python's `pat in s`: some suffix of `s` starts with `pat`. -/
def containsL (pat : List Char) : List Char → Bool
  | [] => pat.isEmpty
  | c :: rest => startsWithL pat (c :: rest) || containsL pat rest

/-- Python's `s.split(pat)[0]` for nonempty `pat`: the characters before the
first occurrence of `pat` in `s`. -/
def beforeFirst (pat : List Char) : List Char → List Char
  | [] => []
  | c :: rest => if startsWithL pat (c :: rest) then [] else c :: beforeFirst pat rest

/-- Python's `s.strip()`: drop whitespace from both ends. -/
def stripL (l : List Char) : List Char :=
  ((l.dropWhile Char.isWhitespace).reverse.dropWhile Char.isWhitespace).reverse

/-- The `"[Reflection]"` marker scanned for by
`ConversationalXAgent._format_conversation_output`. -/
def reflectionMarker : List Char := "[Reflection]".toList

/-! `ConversationalXAgent` from `l3agi_compatibility.py`. -/

/-- One entry of the `context` list passed to `chat`: a dict read through
`msg.get('role', 'user')` and `msg.get('content', '')`, so each key may be
absent. -/
structure ContextMsg where
  role : Option String
  content : Option String
  deriving Repr, DecidableEq

/-- `ConversationalXAgent` state: the inherited `XAgentWrapper` state plus
`conversation_context` and `system_prompt`. -/
structure ConversationalXAgent where
  core : XAgentWrapper
  conversation_context : List ContextMsg
  system_prompt : String

/-- `ConversationalXAgent._format_conversation_input`: system prompt, the last
five context messages (`[-5:]`), and the current message. -/
def format_conversation_input (w : ConversationalXAgent) (message : String) : String :=
  let context_str :=
    if w.conversation_context.isEmpty then ""
    else
      "Previous conversation:\n" ++ String.join
        ((w.conversation_context.drop (w.conversation_context.length - 5)).map
          fun m => "- " ++ m.role.getD "user" ++ ": " ++ m.content.getD "" ++ "\n")
  w.system_prompt ++ "\n\n" ++ context_str ++ "\nCurrent message: " ++ message

/-- `ConversationalXAgent._format_conversation_output`: when the response
contains `"[Reflection]"`, keep only the stripped part before its first
occurrence, otherwise return the response unchanged. -/
def format_conversation_output (response : String) : String :=
  if containsL reflectionMarker response.toList then
    String.mk (stripL (beforeFirst reflectionMarker response.toList))
  else response

/-- `self.conversation_context.extend(context)` at the start of `chat`
(`extend` is skipped on an empty/absent `context`, which coincides with
appending nothing). -/
def extendContext (w : ConversationalXAgent) (context : List ContextMsg) :
    ConversationalXAgent :=
  { w with conversation_context := w.conversation_context ++ context }

/-- `ConversationalXAgent.chat`: extend the context, format the input, run the
wrapper, format the output. -/
def chat (w : ConversationalXAgent) (message : String) (context : List ContextMsg)
    (t1 t2 : Nat) : ConversationalXAgent × String :=
  let w1 := extendContext w context
  let formatted_input := format_conversation_input w1 message
  let rr := run w1.core formatted_input t1 t2
  ({ w1 with core := rr.1 }, format_conversation_output rr.2)

/-! `DialogueAgentWithTools` from `modified_l3agi/dialogue_agent_with_tools.py`
(the parts `remove_tool` touches: `self.tools` and `self.xagent.tools`). -/

/-- `DialogueAgentWithTools` state restricted to what `remove_tool` reads and
writes. -/
structure DialogueAgentWithTools where
  name : String
  system_message : String
  tools : List Tool
  xagent_tools : List Tool
  deriving Repr, DecidableEq

/-- The `for i, tool in enumerate(self.tools)` search of `remove_tool`: find
the first tool whose derived name equals `tool_name`, returning it and the
list with that element popped. -/
def remove_first_matching : List Tool → String → Option (Tool × List Tool)
  | [], _ => none
  | t :: ts, tool_name =>
    if t.derivedName == tool_name then some (t, ts)
    else
      match remove_first_matching ts tool_name with
      | some (r, ts') => some (r, t :: ts')
      | none => none

/-- Python's `list.remove(x)`: drop the first element equal to `x`. -/
def remove_elem : List Tool → Tool → List Tool
  | [], _ => []
  | t :: ts, x => if t == x then ts else t :: remove_elem ts x

/-- `DialogueAgentWithTools.remove_tool`: pop the first tool whose derived name
matches and mirror the removal in `self.xagent.tools`, returning `true`;
return `false` and leave the agent untouched when no tool matches. -/
def remove_tool (a : DialogueAgentWithTools) (tool_name : String) :
    DialogueAgentWithTools × Bool :=
  match remove_first_matching a.tools tool_name with
  | some (r, ts') =>
      ({ a with tools := ts', xagent_tools := remove_elem a.xagent_tools r }, true)
  | none => (a, false)

/-! Specification-side rendering of the step mapping, written from the spec's
words in section 4.1 (analyze maps to "Analysis of: " plus the target, and so
on), to be compared with the source-derived `execute_step`. -/

/-- The step-to-line table as worded by the spec's section 4.1, stated as a
case match to compare against the source's if-chain `execute_step`. -/
def execute_step_spec (step : Step) : String :=
  match step.action with
  | "analyze" => "Analysis of: " ++ step.target
  | "execute" => "Executed: " ++ step.target
  | "validate" => "Validated: " ++ step.target
  | _ => "Completed " ++ step.action ++ " on " ++ step.target

set_option maxRecDepth 40000


/-- The numbered-line list has one line per result. -/
theorem linesFrom_length (n : Nat) (rs : List String) :
    (linesFrom n rs).length = rs.length := by
  induction rs generalizing n with
  | nil => rfl
  | cons r rs ih => simp [linesFrom, ih]

/-- Line `i` of the numbered-line list starting at `n` carries number `n + i`
and renders result `i`. -/
theorem linesFrom_get (rs : List String) : ∀ (n i : Nat) (h : i < rs.length)
    (h2 : i < (linesFrom n rs).length),
    (linesFrom n rs).get ⟨i, h2⟩ = toString (n + i) ++ ". " ++ rs.get ⟨i, h⟩ ++ "\n" := by
  induction rs with
  | nil => intro n i h h2; simp at h
  | cons r rs ih =>
    intro n i h h2
    cases i with
    | zero => simp [linesFrom]
    | succ i =>
      have hx : n + (i + 1) = n + 1 + i := by omega
      simpa [linesFrom, hx] using ih (n + 1) i (by simpa using h) (by simpa [linesFrom_length] using h)

/-- The source's if-chain agrees with the spec's step-to-line table on every
step. -/
theorem execute_step_eq_spec (s : Step) : execute_step s = execute_step_spec s := by
  by_cases h1 : s.action = "analyze" <;> by_cases h2 : s.action = "execute" <;>
    by_cases h3 : s.action = "validate" <;>
      simp [execute_step, execute_step_spec, h1, h2, h3]

/-- A prefix of `l` is also a prefix of `l ++ t`. -/
theorem startsWithL_append (pat l t : List Char) (h : startsWithL pat l = true) :
    startsWithL pat (l ++ t) = true := by
  induction pat generalizing l with
  | nil => rfl
  | cons p ps ih =>
    cases l with
    | nil => simp [startsWithL] at h
    | cons c cs =>
      simp only [startsWithL, Bool.and_eq_true] at h ⊢
      exact ⟨h.1, ih cs h.2⟩

/-- The empty pattern occurs in every list. -/
theorem containsL_nil_pat (l : List Char) : containsL [] l = true := by
  cases l <;> simp [containsL, startsWithL]

/-- An occurrence in `b` survives prepending `a`. -/
theorem containsL_append_left (pat a b : List Char) (h : containsL pat b = true) :
    containsL pat (a ++ b) = true := by
  induction a with
  | nil => simpa using h
  | cons c a ih => simp [containsL, ih]

/-- An occurrence in `b` survives appending `c`. -/
theorem containsL_append_right (pat b c : List Char) (h : containsL pat b = true) :
    containsL pat (b ++ c) = true := by
  induction b with
  | nil =>
    have : pat = [] := by simpa [containsL] using h
    subst this
    simpa using containsL_nil_pat c
  | cons x b ih =>
    simp only [containsL, Bool.or_eq_true] at h
    rcases h with h | h
    · have := startsWithL_append pat (x :: b) c h
      simp only [List.cons_append, containsL, Bool.or_eq_true]
      exact Or.inl (by simpa using this)
    · simp only [List.cons_append, containsL, Bool.or_eq_true]
      exact Or.inr (ih h)

/-- No occurrence in a list means no occurrence in any contiguous slice of
it. -/
theorem containsL_infix_false (pat a b c : List Char)
    (h : containsL pat (a ++ b ++ c) = false) : containsL pat b = false := by
  cases hb : containsL pat b with
  | false => rfl
  | true =>
    have h1 := containsL_append_left pat a _ (containsL_append_right pat b c hb)
    rw [← List.append_assoc] at h1
    rw [h1] at h
    cases h

/-- `beforeFirst pat l` is an initial segment of `l`. -/
theorem beforeFirst_append (pat l : List Char) :
    ∃ t, beforeFirst pat l ++ t = l := by
  induction l with
  | nil => exact ⟨[], rfl⟩
  | cons c rest ih =>
    by_cases hs : startsWithL pat (c :: rest) = true
    · exact ⟨c :: rest, by simp [beforeFirst, hs]⟩
    · obtain ⟨t, ht⟩ := ih
      exact ⟨t, by simp [beforeFirst, hs, ht]⟩

/-- A nonempty pattern never occurs in the part of a list before its first
occurrence. -/
theorem containsL_beforeFirst (pat l : List Char) (hp : pat ≠ []) :
    containsL pat (beforeFirst pat l) = false := by
  induction l with
  | nil =>
    cases pat with
    | nil => exact absurd rfl hp
    | cons p ps => rfl
  | cons c rest ih =>
    by_cases hs : startsWithL pat (c :: rest) = true
    · simp only [beforeFirst, hs, if_true]
      cases pat with
      | nil => exact absurd rfl hp
      | cons p ps => rfl
    · simp only [beforeFirst, hs, if_false]
      simp only [containsL, Bool.or_eq_false_iff]
      refine ⟨?_, ih⟩
      cases hsw : startsWithL pat (c :: beforeFirst pat rest) with
      | false => rfl
      | true =>
        exfalso
        obtain ⟨t, ht⟩ := beforeFirst_append pat rest
        have hst : startsWithL pat ((c :: beforeFirst pat rest) ++ t) = true :=
          startsWithL_append pat _ t hsw
        rw [List.cons_append, ht] at hst
        exact hs hst

/-- Stripping whitespace yields a contiguous slice of the original list. -/
theorem stripL_decomp (l : List Char) : ∃ a c, a ++ stripL l ++ c = l := by
  refine ⟨l.takeWhile Char.isWhitespace,
    ((l.dropWhile Char.isWhitespace).reverse.takeWhile Char.isWhitespace).reverse, ?_⟩
  have h1 : l.takeWhile Char.isWhitespace ++ l.dropWhile Char.isWhitespace = l :=
    List.takeWhile_append_dropWhile Char.isWhitespace l
  have h2 : (l.dropWhile Char.isWhitespace).reverse.takeWhile Char.isWhitespace
      ++ (l.dropWhile Char.isWhitespace).reverse.dropWhile Char.isWhitespace
      = (l.dropWhile Char.isWhitespace).reverse :=
    List.takeWhile_append_dropWhile Char.isWhitespace (l.dropWhile Char.isWhitespace).reverse
  have h3 := congrArg List.reverse h2
  rw [List.reverse_append, List.reverse_reverse] at h3
  unfold stripL
  rw [List.append_assoc, h3, h1]

/-- The conversational output formatter never lets the reflection marker
through: either the response had no marker, or everything from the first
marker on was cut. -/
theorem format_conversation_output_no_marker (response : String) :
    containsL reflectionMarker (format_conversation_output response).toList = false := by
  unfold format_conversation_output
  by_cases hc : containsL reflectionMarker response.toList = true
  · rw [if_pos hc]
    have ht : (String.mk (stripL (beforeFirst reflectionMarker response.toList))).toList
        = stripL (beforeFirst reflectionMarker response.toList) := rfl
    rw [ht]
    obtain ⟨a, c, hac⟩ := stripL_decomp (beforeFirst reflectionMarker response.toList)
    refine containsL_infix_false reflectionMarker a _ c ?_
    rw [hac]
    exact containsL_beforeFirst reflectionMarker response.toList (by decide)
  · rw [if_neg hc]
    simpa using hc

/-- Appending a nonempty string changes the string. -/
theorem string_append_ne_left (a b : String) (hb : b.data ≠ []) : a ++ b ≠ a := by
  intro h
  have hd : a.data ++ b.data = a.data := congrArg String.data h
  have hlen := congrArg List.length hd
  rw [List.length_append] at hlen
  have : b.data.length = 0 := by omega
  exact hb (List.length_eq_zero.mp this)

/-- The removal search fails exactly when no tool in the list bears the
requested derived name. -/
theorem remove_first_matching_none (ts : List Tool) (tool_name : String)
    (h : ∀ t ∈ ts, Tool.derivedName t ≠ tool_name) :
    remove_first_matching ts tool_name = none := by
  induction ts with
  | nil => rfl
  | cons t ts ih =>
    have ht : (t.derivedName == tool_name) = false := by
      simpa using h t (by simp)
    simp [remove_first_matching, ht, ih fun x hx => h x (by simp [hx])]

/-- The workflow reads only the backend, the tool list and the reflection
flag: two wrapper states agreeing on those produce the same response. -/
theorem workflow_congr (w w' : XAgentWrapper)
    (hb : w'.backend = w.backend) (ht : w'.tools = w.tools)
    (hr : w'.memory_enable_reflection = w.memory_enable_reflection)
    (input_text : String) :
    execute_xagent_workflow w' input_text = execute_xagent_workflow w input_text := by
  unfold execute_xagent_workflow create_plan reflect_enabled
  rw [hb, ht, hr]

/-- `run` appends exactly the user message and then the assistant message
(whose content is the returned response) to the conversation history. -/
theorem run_history_eq (w : XAgentWrapper) (input_text : String) (t1 t2 : Nat) :
    (run w input_text t1 t2).1.conversation_history
      = w.conversation_history
        ++ [{ role := "user", content := input_text, timestamp := t1 },
            { role := "assistant", content := (run w input_text t1 t2).2, timestamp := t2 }] := by
  simp [run, List.append_assoc]

/-- The response of `run` is the workflow's output on the input text; the
history grown inside `run` does not influence it. -/
theorem run_response_eq_workflow (w : XAgentWrapper) (input_text : String) (t1 t2 : Nat) :
    (run w input_text t1 t2).2 = execute_xagent_workflow w input_text :=
  workflow_congr w _ rfl rfl rfl input_text

/-! Theorems for the claims, with their supporting witnesses. -/

-- Equality of plan-creation results (`Except String Plan`) is decidable.
deriving instance DecidableEq for Except

/-- Claim C1: `run` is a total function into `String` (so it returns a text
value and, exceptions being modelled by `Except` and all caught below `run`,
never raises to the caller), and it appends exactly two messages to the
conversation history - first a user message carrying the input, then an
assistant message whose content equals the returned text. -/
theorem run_appends_user_then_assistant (w : XAgentWrapper) (input_text : String) (t1 t2 : Nat) :
    ((run w input_text t1 t2).1).conversation_history
      = w.conversation_history
        ++ [{ role := "user", content := input_text, timestamp := t1 },
            { role := "assistant", content := (run w input_text t1 t2).2, timestamp := t2 }] :=
  run_history_eq w input_text t1 t2

/-- Claim C2, counterexample: under the default (non-backend) configuration
the stored backend is `MockXAgent`, which does expose `create_plan`, so
`_create_plan("X")` is the two-step mock plan and not the claimed three-step
analyze/execute/validate plan annotated with the configured tool names. -/
theorem create_plan_default_not_three_step :
    create_plan (defaultWrapper "XAgent" []) "X"
      ≠ Except.ok { steps := [{ action := "analyze", target := "X" },
                              { action := "execute", target := "planned_response" },
                              { action := "validate", target := "result" }],
                    tools_needed := [] } := by decide

/-- Claim C2, amended: under the default (non-backend) configuration
`createPlan` delegates to `MockXAgent.create_plan` and yields, for every
input and independently of any prior calls (it is a pure function of the
wrapper state, which it does not modify), the two steps
mock_analyze/input and mock_respond/generated_response with
`tools_needed = ["mock_tool"]`; the three steps analyze/input,
execute/planned_response, validate/result annotated with the configured tool
names are produced exactly when the backend object lacks a `create_plan`
attribute. -/
theorem create_plan_policies (agent_name : String) (tools : List Tool)
    (input_text : String) (w : XAgentWrapper) (hw : w.backend = Backend.noPlanAttr) :
    create_plan (defaultWrapper agent_name tools) input_text
        = Except.ok (mock_create_plan input_text) ∧
    create_plan w input_text
      = Except.ok { steps := [{ action := "analyze", target := input_text },
                              { action := "execute", target := "planned_response" },
                              { action := "validate", target := "result" }],
                    tools_needed := w.tools.map Tool.derivedName } := by
  refine ⟨rfl, ?_⟩
  unfold create_plan
  rw [hw]
  rfl

/-- A wrapper whose backend object lacks a `create_plan` attribute. -/
def noPlanWrapper : XAgentWrapper :=
  { agent_name := "A",
    tools := [{ hasNameAttr := true, nameAttr := "calc", strForm := "calc_obj" }],
    memory_enable_reflection := none, conversation_history := [],
    backend := Backend.noPlanAttr }

/-- Claim C2, amended: under the default (non-backend) configuration
`createPlan` delegates to `MockXAgent.create_plan` and yields, for every
input and independently of any prior calls (it is a pure function of the
wrapper state, which it does not modify), the two steps
mock_analyze/input and mock_respond/generated_response with
`tools_needed = ["mock_tool"]`; the three steps analyze/input,
execute/planned_response, validate/result annotated with the configured tool
names are produced exactly when the backend object lacks a `create_plan`
attribute. -/
theorem create_plan_policies_witness :
    create_plan (defaultWrapper "XAgent" []) "X" = Except.ok (mock_create_plan "X") ∧
    create_plan noPlanWrapper "X"
      = Except.ok { steps := [{ action := "analyze", target := "X" },
                              { action := "execute", target := "planned_response" },
                              { action := "validate", target := "result" }],
                    tools_needed := noPlanWrapper.tools.map Tool.derivedName } :=
  create_plan_policies "XAgent" [] "X" noPlanWrapper rfl

/-- Claim C3, counterexample: the response of `run("Calculate 5 + 3")` on a
default zero-tool instance does not contain the claimed line
"Analysis of: Calculate 5 + 3". -/
theorem run_calculate_missing_analysis_line :
    containsL ("Analysis of: Calculate 5 + 3".toList)
      ((run (defaultWrapper "XAgent" []) "Calculate 5 + 3" 0 0).2).toList = false := by
  decide

/-- Claim C3, amended: `run("Calculate 5 + 3")` on a default zero-tool
instance yields exactly the multi-line response listing
"Completed mock_analyze on Calculate 5 + 3" and
"Completed mock_respond on generated_response", with
"Task completed successfully." followed by the reflection suffix. -/
theorem run_calculate_actual_output :
    (run (defaultWrapper "XAgent" []) "Calculate 5 + 3" 0 0).2
      = "XAgent completed the following steps:\n1. Completed mock_analyze on Calculate 5 + 3\n2. Completed mock_respond on generated_response\n\nTask completed successfully.\n[Reflection] Evaluated result for input: 'Calculate 5 + 3...'" := by
  decide

/-- A concrete two-step plan exercising order and numbering. -/
def samplePlan2 : Plan :=
  { steps := [{ action := "validate", target := "result" },
              { action := "analyze", target := "Calculate" }],
    tools_needed := [] }

/-- Claim C4: `executePlan` renders each step by the fixed
analyze/execute/validate/other mapping (shown equal to the spec's table),
processes the supplied steps strictly in order, numbering the lines from 1
so that line `i` is the rendering of step `i` prefixed by `i + 1` (hence
permuting the steps permutes the lines identically), and terminates the
synthesis with the fixed completion sentence. -/
theorem execute_plan_ordered_numbering (p : Plan) (i : Nat) (s : Step)
    (h : i < p.steps.length) (hne : p.steps ≠ [])
    (h2 : i < (linesFrom 1 (p.steps.map execute_step)).length) :
    execute_step s = execute_step_spec s ∧
    execute_plan p
      = "XAgent completed the following steps:\n"
        ++ String.join (linesFrom 1 (p.steps.map execute_step))
        ++ "\nTask completed successfully." ∧
    (linesFrom 1 (p.steps.map execute_step)).get ⟨i, h2⟩
      = toString (i + 1) ++ ". " ++ execute_step (p.steps.get ⟨i, h⟩) ++ "\n" := by
  refine ⟨execute_step_eq_spec s, ?_, ?_⟩
  · cases hps : p.steps with
    | nil => exact absurd hps hne
    | cons a as => simp [execute_plan, synthesize_results, hps]
  · rw [linesFrom_get (p.steps.map execute_step) 1 i (by simpa using h) h2]
    rw [Nat.add_comm]
    congr 1
    simp [List.get_eq_getElem, List.getElem_map]

/-- Claim C4: `executePlan` renders each step by the fixed
analyze/execute/validate/other mapping (shown equal to the spec's table),
processes the supplied steps strictly in order, numbering the lines from 1
so that line `i` is the rendering of step `i` prefixed by `i + 1` (hence
permuting the steps permutes the lines identically), and terminates the
synthesis with the fixed completion sentence. -/
theorem execute_plan_ordered_numbering_witness :
    execute_step { action := "frobnicate", target := "thing" }
        = execute_step_spec { action := "frobnicate", target := "thing" } ∧
    execute_plan samplePlan2
      = "XAgent completed the following steps:\n"
        ++ String.join (linesFrom 1 (samplePlan2.steps.map execute_step))
        ++ "\nTask completed successfully." ∧
    (linesFrom 1 (samplePlan2.steps.map execute_step)).get ⟨1, by decide⟩
      = toString (1 + 1) ++ ". " ++ execute_step (samplePlan2.steps.get ⟨1, by decide⟩) ++ "\n" :=
  execute_plan_ordered_numbering samplePlan2 1 { action := "frobnicate", target := "thing" }
    (by decide) (by decide) (by decide)

/-- Claim C5: reflection appends the fixed-format suffix referencing the
50-character truncated prefix of the original input, the suffix is nonempty
(so the unreflected result is a strict prefix of the reflected one),
reflection is enabled on a default wrapper, and the workflow passes the
execution result through unchanged when reflection is disabled and appends
the suffix when it is enabled. -/
theorem reflect_appends_suffix (result input_text : String) (w : XAgentWrapper) (p : Plan)
    (hplan : create_plan w input_text = Except.ok p) :
    reflect_on_result result input_text
      = result ++ ("\n[Reflection] Evaluated result for input: '"
          ++ String.mk (input_text.toList.take 50) ++ "...'") ∧
    reflect_on_result result input_text ≠ result ∧
    reflect_enabled (defaultWrapper w.agent_name w.tools) = true ∧
    (reflect_enabled w = false → execute_xagent_workflow w input_text = execute_plan p) ∧
    (reflect_enabled w = true →
      execute_xagent_workflow w input_text = reflect_on_result (execute_plan p) input_text) := by
  refine ⟨rfl, ?_, rfl, ?_, ?_⟩
  · apply string_append_ne_left
    intro hnil
    have hnil2 : ("\n[Reflection] Evaluated result for input: '".data
        ++ input_text.toList.take 50) ++ "...'".data = [] := hnil
    simp [List.append_eq_nil] at hnil2
  · intro hre
    unfold execute_xagent_workflow
    rw [hplan]
    simp [hre]
  · intro hre
    unfold execute_xagent_workflow
    rw [hplan]
    simp [hre]

/-- Claim C5: reflection appends the fixed-format suffix referencing the
50-character truncated prefix of the original input, the suffix is nonempty
(so the unreflected result is a strict prefix of the reflected one),
reflection is enabled on a default wrapper, and the workflow passes the
execution result through unchanged when reflection is disabled and appends
the suffix when it is enabled. -/
theorem reflect_appends_suffix_witness :
    reflect_on_result "r" "hello"
      = "r" ++ ("\n[Reflection] Evaluated result for input: '"
          ++ String.mk ("hello".toList.take 50) ++ "...'") ∧
    reflect_on_result "r" "hello" ≠ "r" ∧
    reflect_enabled (defaultWrapper (defaultWrapper "XAgent" []).agent_name
        (defaultWrapper "XAgent" []).tools) = true ∧
    (reflect_enabled (defaultWrapper "XAgent" []) = false →
      execute_xagent_workflow (defaultWrapper "XAgent" []) "hello"
        = execute_plan (mock_create_plan "hello")) ∧
    (reflect_enabled (defaultWrapper "XAgent" []) = true →
      execute_xagent_workflow (defaultWrapper "XAgent" []) "hello"
        = reflect_on_result (execute_plan (mock_create_plan "hello")) "hello") :=
  reflect_appends_suffix "r" "hello" (defaultWrapper "XAgent" []) (mock_create_plan "hello") rfl

/-- Claim C6: `clear_memory` followed by `get_memory` yields the empty
sequence, for every instance and every prior history. -/
theorem clear_then_get_empty (w : XAgentWrapper) :
    get_memory (clear_memory w) = [] := rfl

/-- Claim C7: when the backend's `create_plan` raises, the exception is
caught inside the pipeline (never propagated: `run` stays a total function
into `String`), the call returns the text prefixed by the fixed marker
"Workflow execution error: ", the two history messages are still appended,
and the pipeline stays usable - the response of any call depends only on the
backend, tools and reflection configuration, not on the accumulated
history. -/
theorem run_absorbs_backend_error (w w' : XAgentWrapper) (f : String → Except String Plan)
    (input_text input2 e : String) (t1 t2 s1 s2 : Nat)
    (hb : w.backend = Backend.custom f) (hf : f input_text = Except.error e)
    (hb' : w'.backend = w.backend) (ht' : w'.tools = w.tools)
    (hr' : w'.memory_enable_reflection = w.memory_enable_reflection) :
    (run w input_text t1 t2).2 = "Workflow execution error: " ++ e ∧
    (run w input_text t1 t2).1.conversation_history
      = w.conversation_history
        ++ [{ role := "user", content := input_text, timestamp := t1 },
            { role := "assistant", content := "Workflow execution error: " ++ e,
              timestamp := t2 }] ∧
    (run w' input2 s1 s2).2 = (run w input2 s1 s2).2 := by
  have hresp : (run w input_text t1 t2).2 = "Workflow execution error: " ++ e := by
    rw [run_response_eq_workflow]
    unfold execute_xagent_workflow create_plan
    rw [hb]
    simp [Backend.create_plan_attr, hf]
  refine ⟨hresp, ?_, ?_⟩
  · rw [run_history_eq, hresp]
  · rw [run_response_eq_workflow w' input2 s1 s2, run_response_eq_workflow w input2 s1 s2]
    exact workflow_congr w w' hb' ht' hr' input2

/-- A wrapper over a backend whose `create_plan` always raises. -/
def raisingWrapper : XAgentWrapper :=
  { agent_name := "X", tools := [], memory_enable_reflection := none,
    conversation_history := [],
    backend := Backend.custom fun _ => Except.error "boom" }

/-- A wrapper over a backend whose `create_plan` always raises. -/
def raisingWrapper2 : XAgentWrapper :=
  { raisingWrapper with
    conversation_history := [{ role := "user", content := "old", timestamp := 7 }] }

/-- Claim C7: when the backend's `create_plan` raises, the exception is
caught inside the pipeline (never propagated: `run` stays a total function
into `String`), the call returns the text prefixed by the fixed marker
"Workflow execution error: ", the two history messages are still appended,
and the pipeline stays usable - the response of any call depends only on the
backend, tools and reflection configuration, not on the accumulated
history. -/
theorem run_absorbs_backend_error_witness :
    (run raisingWrapper "q" 0 1).2 = "Workflow execution error: " ++ "boom" ∧
    (run raisingWrapper "q" 0 1).1.conversation_history
      = raisingWrapper.conversation_history
        ++ [{ role := "user", content := "q", timestamp := 0 },
            { role := "assistant", content := "Workflow execution error: " ++ "boom",
              timestamp := 1 }] ∧
    (run raisingWrapper2 "later" 2 3).2 = (run raisingWrapper "later" 2 3).2 :=
  run_absorbs_backend_error raisingWrapper raisingWrapper2 (fun _ => Except.error "boom")
    "q" "later" "boom" 0 1 2 3 rfl rfl rfl rfl rfl

/-- Claim C8: removing a tool name that matches no tool's derived name
returns `false` without raising and leaves the agent - in particular the
tool list and its length - unchanged. -/
theorem remove_tool_not_found (a : DialogueAgentWithTools) (tool_name : String)
    (h : ∀ t ∈ a.tools, Tool.derivedName t ≠ tool_name) :
    remove_tool a tool_name = (a, false) ∧
    (remove_tool a tool_name).1.tools.length = a.tools.length := by
  have hm := remove_first_matching_none a.tools tool_name h
  refine ⟨?_, ?_⟩ <;> · unfold remove_tool; rw [hm]

/-- A concrete dialogue agent holding one tool named "calculator". -/
def sampleAgent : DialogueAgentWithTools :=
  { name := "agent", system_message := "sys",
    tools := [{ hasNameAttr := true, nameAttr := "calculator", strForm := "calculator_obj" }],
    xagent_tools := [{ hasNameAttr := true, nameAttr := "calculator", strForm := "calculator_obj" }] }

/-- Claim C8: removing a tool name that matches no tool's derived name
returns `false` without raising and leaves the agent - in particular the
tool list and its length - unchanged. -/
theorem remove_tool_not_found_witness :
    remove_tool sampleAgent "web_search" = (sampleAgent, false) ∧
    (remove_tool sampleAgent "web_search").1.tools.length = sampleAgent.tools.length :=
  remove_tool_not_found sampleAgent "web_search" (by decide)

/-- Claim C9: a plan with an empty step list synthesizes to the fixed string
"No results to synthesize", which contains neither the numbered-step header
nor the completion sentence of non-empty plans. -/
theorem execute_plan_empty_plan (tools_needed : List String) :
    execute_plan { steps := [], tools_needed := tools_needed } = "No results to synthesize" ∧
    containsL ("XAgent completed the following steps:".toList)
      ("No results to synthesize".toList) = false ∧
    containsL ("Task completed successfully.".toList)
      ("No results to synthesize".toList) = false :=
  ⟨rfl, by decide, by decide⟩

/-- Claim C10: `chat` returns the formatter's output on the backend
response; whenever the response contains the "[Reflection]" marker the
formatter keeps only the whitespace-stripped part before its first
occurrence; and the text `chat` returns never contains the marker. -/
theorem chat_strips_reflection (w : ConversationalXAgent) (message : String)
    (context : List ContextMsg) (t1 t2 : Nat) :
    ((chat w message context t1 t2).2
        = format_conversation_output
            (run (extendContext w context).core
              (format_conversation_input (extendContext w context) message) t1 t2).2) ∧
    (∀ response : String, containsL reflectionMarker response.toList = true →
        format_conversation_output response
          = String.mk (stripL (beforeFirst reflectionMarker response.toList))) ∧
    containsL reflectionMarker ((chat w message context t1 t2).2).toList = false := by
  refine ⟨rfl, ?_, ?_⟩
  · intro response h
    unfold format_conversation_output
    rw [if_pos h]
  · exact format_conversation_output_no_marker
      ((run (extendContext w context).core
        (format_conversation_input (extendContext w context) message) t1 t2).2)

/-- A concrete conversational agent over the default wrapper. -/
def sampleConvAgent : ConversationalXAgent :=
  { core := defaultWrapper "XAgent" [], conversation_context := [],
    system_prompt := "You are a helpful AI assistant." }

/-- Claim C10: `chat` returns the formatter's output on the backend
response; whenever the response contains the "[Reflection]" marker the
formatter keeps only the whitespace-stripped part before its first
occurrence; and the text `chat` returns never contains the marker. -/
theorem chat_strips_reflection_witness :
    ((chat sampleConvAgent "hi" [] 0 0).2
        = format_conversation_output
            (run (extendContext sampleConvAgent []).core
              (format_conversation_input (extendContext sampleConvAgent []) "hi") 0 0).2) ∧
    containsL reflectionMarker ((chat sampleConvAgent "hi" [] 0 0).2).toList = false :=
  ⟨(chat_strips_reflection sampleConvAgent "hi" [] 0 0).1,
   (chat_strips_reflection sampleConvAgent "hi" [] 0 0).2.2⟩

end XAgentIntegration
